import Mathlib

/-!
Verification of the Ray Serve autoscaling policy and replica router against
their natural-language specification.  Python floats are modelled as exact
rationals (`ℚ`), Python ints as `ℤ`, raised exceptions as `Except String`.
-/

namespace RayServe

/-- Python `int()` applied to a float: truncation toward zero. -/
def pyTrunc (q : ℚ) : ℤ := if 0 ≤ q then ⌊q⌋ else ⌈q⌉

/-- Direction of a fleet-wide target-capacity change
(`ray.serve._private.common.TargetCapacityDirection`). -/
inductive TargetCapacityDirection : Type
  | UP : TargetCapacityDirection
  | DOWN : TargetCapacityDirection
deriving DecidableEq

/-- Modelled from the spec: `AutoscalingConfig` (the config module is not part
of the sources here; §3 of the spec gives its fields: a positive target of
ongoing requests per replica, integer min/max replica bounds, an optional
initial replica count, positive up/downscale smoothing factors and
nonnegative up/downscale delays in seconds). -/
structure AutoscalingConfig : Type where
  target_num_ongoing_requests_per_replica : ℚ
  min_replicas : ℤ
  max_replicas : ℤ
  initial_replicas : Option ℤ
  upscale_smoothing_factor : ℚ
  downscale_smoothing_factor : ℚ
  upscale_delay_s : ℚ
  downscale_delay_s : ℚ
deriving DecidableEq

/-- Modelled from the spec: the accessor for the upscale smoothing factor
("Smoothing factor = `upscaleSmoothingFactor` if `errorRatio ≥ 1`"). -/
def AutoscalingConfig.get_upscale_smoothing_factor (c : AutoscalingConfig) : ℚ :=
  c.upscale_smoothing_factor

/-- Modelled from the spec: the accessor for the downscale smoothing factor. -/
def AutoscalingConfig.get_downscale_smoothing_factor (c : AutoscalingConfig) : ℚ :=
  c.downscale_smoothing_factor

/-- Modelled from the spec: `get_capacity_adjusted_num_replicas` (the utils
module is not part of the sources here; §4.2: "`adjusted = ceil(raw *
targetCapacity)` with `raw` returned unscaled when `targetCapacity` is
null"). -/
def get_capacity_adjusted_num_replicas (num_replicas : ℤ)
    (target_capacity : Option ℚ) : ℤ :=
  match target_capacity with
  | none => num_replicas
  | some tc => ⌈(num_replicas : ℚ) * tc⌉

/-- `calculate_desired_num_replicas` from
`ray/serve/_private/autoscaling_policy.py`: averages the per-replica ongoing
requests, forms the error ratio against the target, smooths it, takes the
ceiling, applies the zero-traffic decrement, and clamps to the (possibly
overridden) min/max bounds.  An empty request list raises `ValueError`. -/
def calculate_desired_num_replicas (autoscaling_config : AutoscalingConfig)
    (current_num_ongoing_requests : List ℚ)
    (override_min_replicas : Option ℚ := none)
    (override_max_replicas : Option ℚ := none) : Except String ℚ :=
  let current_num_replicas : ℕ := current_num_ongoing_requests.length
  if current_num_replicas = 0 then
    Except.error "Number of replicas cannot be zero"
  else
    let num_ongoing_requests_per_replica : ℚ :=
      current_num_ongoing_requests.sum / (current_num_replicas : ℚ)
    let err_ratio : ℚ :=
      num_ongoing_requests_per_replica /
        autoscaling_config.target_num_ongoing_requests_per_replica
    let smoothing_factor : ℚ :=
      if 1 ≤ err_ratio then autoscaling_config.get_upscale_smoothing_factor
      else autoscaling_config.get_downscale_smoothing_factor
    let smoothed_err_ratio : ℚ := 1 + (err_ratio - 1) * smoothing_factor
    let desired0 : ℤ := ⌈(current_num_replicas : ℚ) * smoothed_err_ratio⌉
    let desired_num_replicas : ℤ :=
      if err_ratio = 0 ∧ desired0 = (current_num_replicas : ℤ) ∧ 1 ≤ desired0 then
        desired0 - 1
      else desired0
    let min_replicas : ℚ :=
      override_min_replicas.getD (autoscaling_config.min_replicas : ℚ)
    let max_replicas : ℚ :=
      override_max_replicas.getD (autoscaling_config.max_replicas : ℚ)
    Except.ok (max min_replicas (min max_replicas (desired_num_replicas : ℚ)))

/-- The state of `BasicAutoscalingPolicy`: its config, the control-loop
period, the two constructor-computed consecutive-period thresholds, the
signed hysteresis counter and the optional fleet-capacity data. -/
structure BasicAutoscalingPolicy : Type where
  config : AutoscalingConfig
  loop_period_s : ℚ
  scale_up_consecutive_periods : ℤ
  scale_down_consecutive_periods : ℤ
  decision_counter : ℤ
  target_capacity : Option ℚ
  target_capacity_direction : Option TargetCapacityDirection
deriving DecidableEq

/-- `BasicAutoscalingPolicy.__init__`: thresholds are Python
`int(delay / loop_period)` (truncation), the counter starts at 0 and the
capacity data at `None`.  The loop period (`CONTROL_LOOP_PERIOD_S`, a
positive constant whose module is not among the sources) is a parameter. -/
def BasicAutoscalingPolicy.mk0 (config : AutoscalingConfig)
    (loop_period_s : ℚ) : BasicAutoscalingPolicy :=
  { config := config
    loop_period_s := loop_period_s
    scale_up_consecutive_periods := pyTrunc (config.upscale_delay_s / loop_period_s)
    scale_down_consecutive_periods := pyTrunc (config.downscale_delay_s / loop_period_s)
    decision_counter := 0
    target_capacity := none
    target_capacity_direction := none }

/-- `get_capacity_adjusted_min_replicas`. -/
def BasicAutoscalingPolicy.get_capacity_adjusted_min_replicas
    (p : BasicAutoscalingPolicy) : ℤ :=
  get_capacity_adjusted_num_replicas p.config.min_replicas p.target_capacity

/-- `get_capacity_adjusted_initial_replicas`: `None` when
`initial_replicas` is unset. -/
def BasicAutoscalingPolicy.get_capacity_adjusted_initial_replicas
    (p : BasicAutoscalingPolicy) : Option ℤ :=
  match p.config.initial_replicas with
  | none => none
  | some ir => some (get_capacity_adjusted_num_replicas ir p.target_capacity)

/-- `get_capacity_adjusted_max_replicas`. -/
def BasicAutoscalingPolicy.get_capacity_adjusted_max_replicas
    (p : BasicAutoscalingPolicy) : ℤ :=
  get_capacity_adjusted_num_replicas p.config.max_replicas p.target_capacity

/-- `apply_initial_bounds`: clamps the current target, with lower bound the
capacity-adjusted initial replicas when those are set and the capacity
direction is `None` or `UP`, else the capacity-adjusted min replicas. -/
def BasicAutoscalingPolicy.apply_initial_bounds (p : BasicAutoscalingPolicy)
    (curr_target_num_replicas : ℤ) : ℤ :=
  let initial_upper_bound := p.get_capacity_adjusted_max_replicas
  let initial_lower_bound :=
    match p.get_capacity_adjusted_initial_replicas with
    | some v =>
        if p.target_capacity_direction = none ∨
            p.target_capacity_direction = some TargetCapacityDirection.UP then v
        else p.get_capacity_adjusted_min_replicas
    | none => p.get_capacity_adjusted_min_replicas
  max initial_lower_bound (min initial_upper_bound curr_target_num_replicas)

/-- `get_curr_lower_bound`: the capacity-adjusted initial replicas when set
and the capacity direction is exactly `UP`, else the capacity-adjusted min
replicas. -/
def BasicAutoscalingPolicy.get_curr_lower_bound (p : BasicAutoscalingPolicy) : ℤ :=
  match p.get_capacity_adjusted_initial_replicas with
  | some v =>
      if p.target_capacity_direction = some TargetCapacityDirection.UP then v
      else p.get_capacity_adjusted_min_replicas
  | none => p.get_capacity_adjusted_min_replicas

/-- `BasicAutoscalingPolicy.get_decision_num_replicas`: the per-tick decision.
Returns the decision together with the updated policy state (the Python
method mutates `self.decision_counter`). -/
def BasicAutoscalingPolicy.get_decision_num_replicas (p : BasicAutoscalingPolicy)
    (curr_target_num_replicas : ℤ) (current_num_ongoing_requests : List ℚ)
    (current_handle_queued_queries : ℚ) :
    Except String (ℚ × BasicAutoscalingPolicy) :=
  if current_num_ongoing_requests.length = 0 then
    if 0 < current_handle_queued_queries then
      Except.ok
        (((max ⌈(1 : ℚ) * p.config.get_upscale_smoothing_factor⌉
            curr_target_num_replicas : ℤ) : ℚ), p)
    else
      Except.ok ((curr_target_num_replicas : ℚ), p)
  else
    match calculate_desired_num_replicas p.config current_num_ongoing_requests
        (some ((p.get_curr_lower_bound : ℤ) : ℚ))
        (some ((p.get_capacity_adjusted_max_replicas : ℤ) : ℚ)) with
    | Except.error e => Except.error e
    | Except.ok desired_num_replicas =>
      if (curr_target_num_replicas : ℚ) < desired_num_replicas then
        let c0 : ℤ := if p.decision_counter < 0 then 0 else p.decision_counter
        let c1 : ℤ := c0 + 1
        if p.scale_up_consecutive_periods < c1 then
          Except.ok (desired_num_replicas, { p with decision_counter := 0 })
        else
          Except.ok ((curr_target_num_replicas : ℚ), { p with decision_counter := c1 })
      else if desired_num_replicas < (curr_target_num_replicas : ℚ) then
        let c0 : ℤ := if 0 < p.decision_counter then 0 else p.decision_counter
        let c1 : ℤ := c0 - 1
        if c1 < -p.scale_down_consecutive_periods then
          Except.ok (desired_num_replicas, { p with decision_counter := 0 })
        else
          Except.ok ((curr_target_num_replicas : ℚ), { p with decision_counter := c1 })
      else
        Except.ok ((curr_target_num_replicas : ℚ), { p with decision_counter := 0 })

/-! ### Spec-side reference definition of the desired-replica computation
(written from the words of §4.2 of the spec, for comparison with
`calculate_desired_num_replicas`). -/

/-- Clamping to an interval, as the spec's step 8 words it. -/
def clampSpec (lo hi x : ℚ) : ℚ := if x < lo then lo else if hi < x then hi else x

/-- The spec's `desiredReplicas(cfg, ongoingPerReplica[], minBound, maxBound)`
algorithm, steps 1-8, written from its words: error on an empty list, mean,
error ratio, smoothing-factor choice, smoothed ratio, ceiling, zero-traffic
decrement, clamp. -/
def desiredReplicasSpec (cfg : AutoscalingConfig) (ongoingPerReplica : List ℚ)
    (minBound maxBound : ℚ) : Option ℚ :=
  if ongoingPerReplica.length = 0 then none
  else
    let n : ℕ := ongoingPerReplica.length
    let avgOngoing : ℚ := ongoingPerReplica.sum / (n : ℚ)
    let errRatio : ℚ := avgOngoing / cfg.target_num_ongoing_requests_per_replica
    let smoothingFactor : ℚ :=
      if 1 ≤ errRatio then cfg.upscale_smoothing_factor
      else cfg.downscale_smoothing_factor
    let smoothedRatio : ℚ := 1 + (errRatio - 1) * smoothingFactor
    let desired : ℤ := ⌈(n : ℚ) * smoothedRatio⌉
    let desired2 : ℤ :=
      if errRatio = 0 ∧ desired = (n : ℤ) ∧ 1 ≤ desired then desired - 1 else desired
    some (clampSpec minBound maxBound (desired2 : ℚ))

/-! ### Iterated policy state and the zero-traffic dynamics. -/

/-- Advance the policy state by one `get_decision_num_replicas` call
(a call is `(curr_target, ongoing_requests, queued_queries)`). -/
def stepPolicy (p : BasicAutoscalingPolicy) (call : ℤ × List ℚ × ℚ) :
    BasicAutoscalingPolicy :=
  match p.get_decision_num_replicas call.1 call.2.1 call.2.2 with
  | Except.ok (_, p1) => p1
  | Except.error _ => p

/-- One evaluation of `calculate_desired_num_replicas` under sustained zero
traffic: `c` replicas, each with 0 ongoing requests, no bound overrides; the
resulting desired count (an integer-valued rational) as a natural number. -/
def zeroTrafficStep (cfg : AutoscalingConfig) (c : ℕ) : ℕ :=
  match calculate_desired_num_replicas cfg (List.replicate c 0) none none with
  | Except.ok d => (⌈d⌉).toNat
  | Except.error _ => c

/-! ### The replica router, modelled from the spec.

The router source (`ray/serve/_private/router.py`, class `ReplicaSet`) is not
among the source files here — only its unit tests are — so the model below is
written from §3, §4.1 and §8 of the spec: a registry of replicas with
immutable per-replica concurrency limits, a per-replica in-flight count, an
embargo table of `(tag, expiryTime)` entries, and an `assign` operation that
picks a least-loaded, non-embargoed replica with spare capacity (ties by
registry order) or suspends (`none`) when no replica is eligible.  Time is an
abstract `ℕ` passed to the operations. -/

/-- A registered replica: its stable identity tag and its immutable
concurrency limit (`RunningReplicaInfo` restricted to what the router model
needs). -/
structure RunningReplicaInfo : Type where
  replica_tag : String
  max_concurrent_queries : ℕ
deriving DecidableEq

/-- Router state: registry, per-tag in-flight counts, embargo table. -/
structure ReplicaSet : Type where
  replicas : List RunningReplicaInfo
  in_flight : List (String × ℕ)
  embargoes : List (String × ℕ)
deriving DecidableEq

/-- The in-flight count recorded for a tag (0 when absent). -/
def lookupCount (m : List (String × ℕ)) (tag : String) : ℕ :=
  ((m.find? (fun e => e.1 == tag)).map Prod.snd).getD 0

/-- Overwrite (or create) the count recorded for a tag. -/
def setCount (m : List (String × ℕ)) (tag : String) (n : ℕ) :
    List (String × ℕ) :=
  match m with
  | [] => [(tag, n)]
  | e :: rest => if e.1 == tag then (tag, n) :: rest else e :: setCount rest tag n

/-- A fresh, empty router. -/
def ReplicaSet.empty : ReplicaSet :=
  { replicas := [], in_flight := [], embargoes := [] }

/-- Whether `tag` has an unexpired embargo entry at time `now`. -/
def ReplicaSet.isEmbargoed (rs : ReplicaSet) (now : ℕ) (tag : String) : Bool :=
  rs.embargoes.any (fun e => e.1 == tag && decide (now < e.2))

/-- The spec's candidate set: registered replicas that are not embargoed and
have spare concurrency capacity. -/
def ReplicaSet.eligibleReplicas (rs : ReplicaSet) (now : ℕ) :
    List RunningReplicaInfo :=
  rs.replicas.filter (fun r =>
    !(rs.isEmbargoed now r.replica_tag) &&
      decide (lookupCount rs.in_flight r.replica_tag < r.max_concurrent_queries))

/-- Least-loaded selection with ties broken by registry (insertion) order:
the earliest candidate whose in-flight count is minimal. -/
def pickLeastLoaded (rs : ReplicaSet) :
    List RunningReplicaInfo → Option RunningReplicaInfo
  | [] => none
  | r :: rest =>
    match pickLeastLoaded rs rest with
    | none => some r
    | some best =>
        if lookupCount rs.in_flight r.replica_tag ≤
            lookupCount rs.in_flight best.replica_tag then some r
        else some best

/-- `assign`: pick an eligible replica and atomically reserve one capacity
slot on it; `none` models the call suspending because no replica is
eligible. -/
def ReplicaSet.assign (rs : ReplicaSet) (now : ℕ) :
    Option (String × ReplicaSet) :=
  match pickLeastLoaded rs (rs.eligibleReplicas now) with
  | none => none
  | some r =>
      let m := setCount rs.in_flight r.replica_tag
        (lookupCount rs.in_flight r.replica_tag + 1)
      some (r.replica_tag, { rs with in_flight := m })

/-- A request on `tag` completes: its capacity slot is released. -/
def ReplicaSet.complete_query (rs : ReplicaSet) (tag : String) : ReplicaSet :=
  let m := setCount rs.in_flight tag (lookupCount rs.in_flight tag - 1)
  { rs with in_flight := m }

/-- `embargo_replica`: exclude `tag` from assignment until `now + duration`;
re-embargoing replaces any previous entry (at most one active entry per
tag). -/
def ReplicaSet.embargo_replica (rs : ReplicaSet) (now : ℕ) (tag : String)
    (duration : ℕ) : ReplicaSet :=
  { rs with embargoes :=
      (tag, now + duration) :: rs.embargoes.filter (fun e => !(e.1 == tag)) }

/-- `update_running_replicas`: replace the registry; in-flight state is
carried over for replicas present in the new set (matched by tag) and
dropped for removed replicas; embargoes are untouched. -/
def ReplicaSet.update_running_replicas (rs : ReplicaSet)
    (new_replicas : List RunningReplicaInfo) : ReplicaSet :=
  { replicas := new_replicas
    in_flight := rs.in_flight.filter (fun e =>
      new_replicas.any (fun r => r.replica_tag == e.1))
    embargoes := rs.embargoes }

/-- One router transition: a successful assignment, a completion, an embargo,
or a registry update.  A registry update delivers tag-distinct replicas, and
a replica surviving an update keeps its (immutable) concurrency limit. -/
inductive RouterStep : ReplicaSet → ReplicaSet → Prop
  | assign (rs : ReplicaSet) (now : ℕ) (tag : String) (rs1 : ReplicaSet) :
      rs.assign now = some (tag, rs1) → RouterStep rs rs1
  | complete (rs : ReplicaSet) (tag : String) :
      RouterStep rs (rs.complete_query tag)
  | embargo (rs : ReplicaSet) (now : ℕ) (tag : String) (duration : ℕ) :
      RouterStep rs (rs.embargo_replica now tag duration)
  | update (rs : ReplicaSet) (new_replicas : List RunningReplicaInfo) :
      (new_replicas.map RunningReplicaInfo.replica_tag).Nodup →
      (∀ r ∈ new_replicas, ∀ r0 ∈ rs.replicas,
        r0.replica_tag = r.replica_tag →
        r0.max_concurrent_queries = r.max_concurrent_queries) →
      RouterStep rs (rs.update_running_replicas new_replicas)

/-- States reachable from the empty router. -/
def ReachableRouter (rs : ReplicaSet) : Prop :=
  Relation.ReflTransGen RouterStep ReplicaSet.empty rs

/-! ### Concrete configurations used in the scenarios. -/

/-- The spec's concrete scenario config: target 1 ongoing request per
replica, bounds [1, 10], smoothing factors 1, up/downscale delays of 2
seconds (= 2 control-loop periods at a 1-second period). -/
def cfgA : AutoscalingConfig :=
  { target_num_ongoing_requests_per_replica := 1
    min_replicas := 1
    max_replicas := 10
    initial_replicas := none
    upscale_smoothing_factor := 1
    downscale_smoothing_factor := 1
    upscale_delay_s := 2
    downscale_delay_s := 2 }

/-- `cfgA` with an upscale delay of 1 second; at a 2-second control-loop
period the delay/period ratio is 1/2, separating `int` truncation from
`ceil`. -/
def cfgB : AutoscalingConfig := { cfgA with upscale_delay_s := 1 }

/-- `cfgA` with `min_replicas = 0` and downscale smoothing factor 1/10:
a scale-to-zero configuration where the ceiling sticks without the
zero-traffic decrement. -/
def cfgZ : AutoscalingConfig :=
  { cfgA with min_replicas := 0, downscale_smoothing_factor := 1/10 }

/-- `cfgA` with upscale smoothing factor 2 and `max_replicas = 1`: the
scale-from-zero proposal `ceil(1 * 2) = 2` exceeds the max bound. -/
def cfgX : AutoscalingConfig :=
  { cfgA with upscale_smoothing_factor := 2, max_replicas := 1 }

/-- The policy of the hysteresis scenario: `cfgA` at a control-loop period
of 1 second, so both consecutive-period thresholds are 2. -/
def pH : BasicAutoscalingPolicy := BasicAutoscalingPolicy.mk0 cfgA 1

/-! ## Helper lemmas -/

/-- Clamping as `max lo (min hi x)` agrees with the spec's wording of
clamping whenever the bounds are consistent. -/
lemma max_min_eq_clampSpec (lo hi x : ℚ) (h : lo ≤ hi) :
    max lo (min hi x) = clampSpec lo hi x := by
  unfold clampSpec
  rw [max_def, min_def]
  split_ifs <;> linarith

/-- `calculate_desired_num_replicas` on a nonempty list, unfolded. -/
lemma calculate_desired_nonempty (cfg : AutoscalingConfig) (l : List ℚ)
    (omin omax : Option ℚ) (hne : l.length ≠ 0) :
    calculate_desired_num_replicas cfg l omin omax =
      (let err_ratio : ℚ :=
        l.sum / (l.length : ℚ) / cfg.target_num_ongoing_requests_per_replica
      let smoothing_factor : ℚ :=
        if 1 ≤ err_ratio then cfg.upscale_smoothing_factor
        else cfg.downscale_smoothing_factor
      let desired0 : ℤ := ⌈(l.length : ℚ) * (1 + (err_ratio - 1) * smoothing_factor)⌉
      let desired1 : ℤ :=
        if err_ratio = 0 ∧ desired0 = (l.length : ℤ) ∧ 1 ≤ desired0 then desired0 - 1
        else desired0
      Except.ok (max (omin.getD (cfg.min_replicas : ℚ))
        (min (omax.getD (cfg.max_replicas : ℚ)) (desired1 : ℚ)))) := by
  unfold calculate_desired_num_replicas AutoscalingConfig.get_upscale_smoothing_factor
    AutoscalingConfig.get_downscale_smoothing_factor
  rw [if_neg hne]

/-- Evaluation of the spec's concrete scenario: two replicas with 2.0
ongoing requests each against a target of 1 and upscale smoothing factor 1,
bounds [1, 10], give a desired count of 4. -/
lemma calc_two_two_eval (cfg : AutoscalingConfig)
    (ht : cfg.target_num_ongoing_requests_per_replica = 1)
    (hu : cfg.upscale_smoothing_factor = 1) :
    calculate_desired_num_replicas cfg [2, 2] (some 1) (some 10) =
      Except.ok 4 := by
  rw [calculate_desired_nonempty cfg [2, 2] _ _ (by norm_num)]
  simp only [List.sum_cons, List.sum_nil, List.length_cons, List.length_nil,
    ht, hu, Option.getD_some]
  norm_num

/-! ## Claims -/

/-- C8: calling `calculate_desired_num_replicas` with an empty
ongoing-requests list raises an error (the `ZeroReplicaAverage` condition)
for every configuration and bound overrides, rather than returning a
default value. -/
theorem C8_empty_sample_guard (cfg : AutoscalingConfig)
    (omin omax : Option ℚ) :
    calculate_desired_num_replicas cfg [] omin omax =
      Except.error "Number of replicas cannot be zero" := rfl

/-- C2: on every nonempty list, positive target and consistent bounds,
`calculate_desired_num_replicas` returns exactly what the spec's
`desiredReplicas` algorithm (steps 1-8, including the zero-traffic
decrement) prescribes; concretely, `[2.0, 2.0]` against target 1, smoothing
factor 1 and bounds [1, 10] gives 4. -/
theorem C2_desired_replicas_refines_spec (cfg : AutoscalingConfig)
    (ongoingPerReplica : List ℚ) (minBound maxBound : ℚ)
    (hne : ongoingPerReplica.length ≠ 0)
    (htarget : 0 < cfg.target_num_ongoing_requests_per_replica)
    (hbounds : minBound ≤ maxBound) :
    (calculate_desired_num_replicas cfg ongoingPerReplica
        (some minBound) (some maxBound)).toOption =
      desiredReplicasSpec cfg ongoingPerReplica minBound maxBound ∧
    calculate_desired_num_replicas cfgA [2, 2] (some 1) (some 10) =
      Except.ok 4 := by
  constructor
  · rw [calculate_desired_nonempty _ _ _ _ hne]
    unfold desiredReplicasSpec
    rw [if_neg hne]
    simp only [Option.getD_some]
    exact congrArg some (max_min_eq_clampSpec _ _ _ hbounds)
  · exact calc_two_two_eval cfgA rfl rfl

/-- C2, instantiated: the hypotheses of
`C2_desired_replicas_refines_spec` hold at the concrete scenario input and
its conclusion evaluates there. -/
theorem C2_desired_replicas_refines_spec_witness :
    (calculate_desired_num_replicas cfgA [2, 2]
        (some 1) (some 10)).toOption =
      desiredReplicasSpec cfgA [2, 2] 1 10 ∧
    calculate_desired_num_replicas cfgA [2, 2] (some 1) (some 10) =
      Except.ok 4 :=
  C2_desired_replicas_refines_spec cfgA [2, 2] 1 10 (by norm_num)
    (by norm_num [cfgA]) (by norm_num)

/-- `cfgA` with `initial_replicas = 5`. -/
def cfgI : AutoscalingConfig := { cfgA with initial_replicas := some 5 }

/-- A policy with initial replicas set and capacity direction unset: the
case on which the two lower bounds disagree. -/
def pAsym : BasicAutoscalingPolicy := BasicAutoscalingPolicy.mk0 cfgI 1

/-- C4: `apply_initial_bounds` uses the capacity-adjusted initial replicas
as lower bound exactly when they are set and the capacity direction is UP
or unset (else the capacity-adjusted min replicas), while
`get_curr_lower_bound` uses them only when the direction is exactly UP;
with direction unset and initial replicas 5 (min 1), the first clamps up to
5 while the second is 1. -/
theorem C4_lower_bound_asymmetry (p : BasicAutoscalingPolicy) (t : ℤ) :
    (p.apply_initial_bounds t =
      max (if p.get_capacity_adjusted_initial_replicas.isSome = true ∧
              (p.target_capacity_direction = none ∨
                p.target_capacity_direction = some TargetCapacityDirection.UP)
            then p.get_capacity_adjusted_initial_replicas.getD 0
            else p.get_capacity_adjusted_min_replicas)
        (min p.get_capacity_adjusted_max_replicas t)) ∧
    (p.get_curr_lower_bound =
      if p.get_capacity_adjusted_initial_replicas.isSome = true ∧
          p.target_capacity_direction = some TargetCapacityDirection.UP
        then p.get_capacity_adjusted_initial_replicas.getD 0
        else p.get_capacity_adjusted_min_replicas) ∧
    pAsym.apply_initial_bounds 0 = 5 ∧ pAsym.get_curr_lower_bound = 1 := by
  refine ⟨?_, ?_, by decide, by decide⟩
  · unfold BasicAutoscalingPolicy.apply_initial_bounds
    cases h : p.get_capacity_adjusted_initial_replicas with
    | none => simp
    | some v => simp only [Option.isSome_some, Option.getD_some, true_and]
  · unfold BasicAutoscalingPolicy.get_curr_lower_bound
    cases h : p.get_capacity_adjusted_initial_replicas with
    | none => simp
    | some v => simp only [Option.isSome_some, Option.getD_some, true_and]

/-- C5: with an empty ongoing-requests list the decision never raises; with
queued queries it immediately (no hysteresis-counter involvement) proposes
`max(ceil(1 * upscaleSmoothingFactor), currentTarget)`, which is at least
`ceil(1 * upscaleSmoothingFactor)`; with no queued queries the current
target is returned unchanged. -/
theorem C5_zero_replica_tick (p : BasicAutoscalingPolicy) (curr : ℤ)
    (queued : ℚ) :
    (∃ out, p.get_decision_num_replicas curr [] queued = Except.ok out) ∧
    (0 < queued →
      p.get_decision_num_replicas curr [] queued =
        Except.ok
          (((max ⌈(1 : ℚ) * p.config.get_upscale_smoothing_factor⌉ curr : ℤ) : ℚ),
            p) ∧
      ⌈(1 : ℚ) * p.config.get_upscale_smoothing_factor⌉ ≤
        max ⌈(1 : ℚ) * p.config.get_upscale_smoothing_factor⌉ curr) ∧
    (queued = 0 →
      p.get_decision_num_replicas curr [] queued =
        Except.ok ((curr : ℚ), p)) := by
  unfold BasicAutoscalingPolicy.get_decision_num_replicas
  simp only [List.length_nil, if_true]
  refine ⟨?_, fun h => ⟨by rw [if_pos h], le_max_left _ _⟩,
    fun h => by rw [if_neg (by rw [h]; exact lt_irrefl 0)]⟩
  by_cases h : 0 < queued
  · exact ⟨_, by rw [if_pos h]⟩
  · exact ⟨_, by rw [if_neg h]⟩

/-- C5, instantiated: at the concrete policy `pH` with current target 0 and
one queued query, the decision is 1 replica. -/
theorem C5_zero_replica_tick_witness :
    (0 : ℚ) < 1 ∧
      pH.get_decision_num_replicas 0 [] 1 = Except.ok ((1 : ℚ), pH) := by
  refine ⟨by norm_num, ?_⟩
  have h := ((C5_zero_replica_tick pH 0 1).2.1 (by norm_num)).1
  rw [h]
  norm_num [pH, BasicAutoscalingPolicy.mk0, cfgA,
    AutoscalingConfig.get_upscale_smoothing_factor]

/-- C10: with an empty ongoing-requests list and queued queries, the
decision is exactly `max(ceil(upscaleSmoothingFactor), currentTarget)` —
never below the current target, and with no min/max bound applied: at
`cfgX` (smoothing factor 2, `max_replicas = 1`) the proposal 2 exceeds
`max_replicas`. -/
theorem C10_unclamped_scale_from_zero (p : BasicAutoscalingPolicy)
    (curr : ℤ) (queued : ℚ) (h : 0 < queued) :
    p.get_decision_num_replicas curr [] queued =
      Except.ok
        (((max ⌈(1 : ℚ) * p.config.get_upscale_smoothing_factor⌉ curr : ℤ) : ℚ),
          p) ∧
    curr ≤ max ⌈(1 : ℚ) * p.config.get_upscale_smoothing_factor⌉ curr ∧
    ((BasicAutoscalingPolicy.mk0 cfgX 1).get_decision_num_replicas 0 [] 1 =
        Except.ok ((2 : ℚ), BasicAutoscalingPolicy.mk0 cfgX 1) ∧
      cfgX.max_replicas = 1 ∧ (1 : ℤ) < 2) := by
  refine ⟨?_, le_max_right _ _, ?_, rfl, by norm_num⟩
  · unfold BasicAutoscalingPolicy.get_decision_num_replicas
    simp only [List.length_nil, if_true]
    rw [if_pos h]
  · unfold BasicAutoscalingPolicy.get_decision_num_replicas
    simp only [List.length_nil, if_true]
    rw [if_pos (by norm_num : (0 : ℚ) < 1)]
    norm_num [BasicAutoscalingPolicy.mk0, cfgX, cfgA,
      AutoscalingConfig.get_upscale_smoothing_factor]

/-- C10, instantiated: at the concrete policy `pH` with current target 3
and one queued query, the decision is 3 (the current target, since
`ceil(1) < 3`). -/
theorem C10_unclamped_scale_from_zero_witness :
    (0 : ℚ) < 1 ∧
      pH.get_decision_num_replicas 3 [] 1 = Except.ok ((3 : ℚ), pH) := by
  refine ⟨by norm_num, ?_⟩
  have h := (C10_unclamped_scale_from_zero pH 3 1 (by norm_num)).1
  rw [h]
  norm_num [pH, BasicAutoscalingPolicy.mk0, cfgA,
    AutoscalingConfig.get_upscale_smoothing_factor]

/-- Characterization of a `get_decision_num_replicas` call whose desired
count exceeds the current target: a negative counter is reset before the
increment, and the new target is emitted (with counter reset) exactly when
the incremented counter exceeds `scale_up_consecutive_periods`. -/
lemma get_decision_upscale (p : BasicAutoscalingPolicy) (curr : ℤ)
    (ongoing : List ℚ) (queued d : ℚ) (hne : ongoing.length ≠ 0)
    (hd : calculate_desired_num_replicas p.config ongoing
        (some (p.get_curr_lower_bound : ℚ))
        (some (p.get_capacity_adjusted_max_replicas : ℚ)) = Except.ok d)
    (hgt : (curr : ℚ) < d) :
    p.get_decision_num_replicas curr ongoing queued =
      if p.scale_up_consecutive_periods <
          (if p.decision_counter < 0 then 0 else p.decision_counter) + 1 then
        Except.ok (d, { p with decision_counter := 0 })
      else
        Except.ok ((curr : ℚ),
          { p with decision_counter :=
              (if p.decision_counter < 0 then 0 else p.decision_counter) + 1 }) := by
  unfold BasicAutoscalingPolicy.get_decision_num_replicas
  rw [if_neg hne, hd]
  dsimp only
  rw [if_pos hgt]

/-- Characterization of a call whose desired count is below the current
target: a positive counter is reset before the decrement, and the new
target is emitted (with counter reset) exactly when the decremented counter
goes below `-scale_down_consecutive_periods`. -/
lemma get_decision_downscale (p : BasicAutoscalingPolicy) (curr : ℤ)
    (ongoing : List ℚ) (queued d : ℚ) (hne : ongoing.length ≠ 0)
    (hd : calculate_desired_num_replicas p.config ongoing
        (some (p.get_curr_lower_bound : ℚ))
        (some (p.get_capacity_adjusted_max_replicas : ℚ)) = Except.ok d)
    (hlt : d < (curr : ℚ)) :
    p.get_decision_num_replicas curr ongoing queued =
      if (if 0 < p.decision_counter then 0 else p.decision_counter) - 1 <
          -p.scale_down_consecutive_periods then
        Except.ok (d, { p with decision_counter := 0 })
      else
        Except.ok ((curr : ℚ),
          { p with decision_counter :=
              (if 0 < p.decision_counter then 0 else p.decision_counter) - 1 }) := by
  unfold BasicAutoscalingPolicy.get_decision_num_replicas
  rw [if_neg hne, hd]
  dsimp only
  rw [if_neg (not_lt.mpr (le_of_lt hlt)), if_pos hlt]

/-- Characterization of a call whose desired count equals the current
target: the counter is reset and the target is unchanged. -/
lemma get_decision_noop (p : BasicAutoscalingPolicy) (curr : ℤ)
    (ongoing : List ℚ) (queued d : ℚ) (hne : ongoing.length ≠ 0)
    (hd : calculate_desired_num_replicas p.config ongoing
        (some (p.get_curr_lower_bound : ℚ))
        (some (p.get_capacity_adjusted_max_replicas : ℚ)) = Except.ok d)
    (heq : d = (curr : ℚ)) :
    p.get_decision_num_replicas curr ongoing queued =
      Except.ok ((curr : ℚ), { p with decision_counter := 0 }) := by
  unfold BasicAutoscalingPolicy.get_decision_num_replicas
  rw [if_neg hne, hd]
  dsimp only
  rw [if_neg (by rw [heq]; exact lt_irrefl _), if_neg (by rw [heq]; exact lt_irrefl _)]

/-- `pyTrunc` evaluation on a nonnegative rational. -/
lemma pyTrunc_eq_of (q : ℚ) (z : ℤ) (h0 : 0 ≤ q) (h1 : (z : ℚ) ≤ q)
    (h2 : q < z + 1) : pyTrunc q = z := by
  unfold pyTrunc
  rw [if_pos h0, Int.floor_eq_iff]
  exact ⟨h1, h2⟩

/-- The desired count for the `cfgA` family of configs on `[2, 2]` with the
standard bounds is 4, in the exact override form used by
`get_decision_num_replicas`. -/
lemma hd_cfgA_family (p : BasicAutoscalingPolicy)
    (h1 : p.config.target_num_ongoing_requests_per_replica = 1)
    (h2 : p.config.upscale_smoothing_factor = 1)
    (hlb : p.get_curr_lower_bound = 1)
    (hub : p.get_capacity_adjusted_max_replicas = 10) :
    calculate_desired_num_replicas p.config [2, 2]
      (some (p.get_curr_lower_bound : ℚ))
      (some (p.get_capacity_adjusted_max_replicas : ℚ)) = Except.ok 4 := by
  rw [hlb, hub]
  push_cast
  exact calc_two_two_eval p.config h1 h2

/-- C1 fails as stated: with `upscaleDelaySeconds = 1` and a control-loop
period of 2 seconds, the very first over-target sample already emits the new
target (4 instead of the current 2), although the incremented counter (= 1)
does not exceed `ceil(upscaleDelaySeconds / controlLoopPeriod) = 1`; the
code's threshold is the truncated `int(1/2) = 0`, not the ceiling. -/
theorem C1_hysteresis_counterexample :
    (BasicAutoscalingPolicy.mk0 cfgB 2).get_decision_num_replicas 2 [2, 2] 0 =
        Except.ok ((4 : ℚ), BasicAutoscalingPolicy.mk0 cfgB 2) ∧
    (4 : ℚ) ≠ ((2 : ℤ) : ℚ) ∧
    (if (BasicAutoscalingPolicy.mk0 cfgB 2).decision_counter < 0 then 0
      else (BasicAutoscalingPolicy.mk0 cfgB 2).decision_counter) + 1 = 1 ∧
    ¬ (1 : ℤ) > ⌈cfgB.upscale_delay_s / (2 : ℚ)⌉ := by
  have hth : (BasicAutoscalingPolicy.mk0 cfgB 2).scale_up_consecutive_periods = 0 := by
    show pyTrunc (cfgB.upscale_delay_s / 2) = 0
    exact pyTrunc_eq_of _ _ (by norm_num [cfgB, cfgA]) (by norm_num [cfgB, cfgA])
      (by norm_num [cfgB, cfgA])
  have hc0 : (BasicAutoscalingPolicy.mk0 cfgB 2).decision_counter = 0 := rfl
  refine ⟨?_, by norm_num, by rw [hc0]; norm_num, ?_⟩
  · have hstep := get_decision_upscale (BasicAutoscalingPolicy.mk0 cfgB 2) 2
      [2, 2] 0 4 (by norm_num) (hd_cfgA_family _ rfl rfl rfl rfl) (by norm_num)
    rw [hstep, if_pos (by rw [hth, hc0]; decide)]
    rfl
  · have hceil : ⌈cfgB.upscale_delay_s / (2 : ℚ)⌉ = 1 := by
      rw [show cfgB.upscale_delay_s / (2 : ℚ) = 1 / 2 by norm_num [cfgB, cfgA],
        Int.ceil_eq_iff] <;> norm_num
    rw [hceil]
    norm_num

/-- C1, amended: the thresholds are the constructor's truncated
`int(delay / period)`, not its ceiling.  Whenever the desired count exceeds
the current target, a negative counter is reset to 0 and the counter is
incremented; the new target is emitted (with the counter reset to 0) exactly
when the counter exceeds `scale_up_consecutive_periods`
(= `int(upscaleDelaySeconds / controlLoopPeriod)`), and otherwise the target
is unchanged (symmetrically below the target with the downscale threshold).
With `upscaleDelaySeconds = 2 * controlLoopPeriod`, a single over-target
sample leaves the target at 2 while three consecutive ones raise it to 4. -/
theorem C1_hysteresis_amended (p : BasicAutoscalingPolicy) (curr : ℤ)
    (ongoing : List ℚ) (queued d : ℚ) (hne : ongoing.length ≠ 0)
    (hd : calculate_desired_num_replicas p.config ongoing
        (some (p.get_curr_lower_bound : ℚ))
        (some (p.get_capacity_adjusted_max_replicas : ℚ)) = Except.ok d) :
    ((curr : ℚ) < d →
      (p.scale_up_consecutive_periods <
          (if p.decision_counter < 0 then 0 else p.decision_counter) + 1 →
        p.get_decision_num_replicas curr ongoing queued =
          Except.ok (d, { p with decision_counter := 0 })) ∧
      ((if p.decision_counter < 0 then 0 else p.decision_counter) + 1 ≤
          p.scale_up_consecutive_periods →
        p.get_decision_num_replicas curr ongoing queued =
          Except.ok ((curr : ℚ),
            { p with decision_counter :=
                (if p.decision_counter < 0 then 0 else p.decision_counter) + 1 }))) ∧
    (d < (curr : ℚ) →
      ((if 0 < p.decision_counter then 0 else p.decision_counter) - 1 <
          -p.scale_down_consecutive_periods →
        p.get_decision_num_replicas curr ongoing queued =
          Except.ok (d, { p with decision_counter := 0 })) ∧
      (-p.scale_down_consecutive_periods ≤
          (if 0 < p.decision_counter then 0 else p.decision_counter) - 1 →
        p.get_decision_num_replicas curr ongoing queued =
          Except.ok ((curr : ℚ),
            { p with decision_counter :=
                (if 0 < p.decision_counter then 0 else p.decision_counter) - 1 }))) ∧
    pH.scale_up_consecutive_periods = 2 ∧
    cfgA.upscale_delay_s = 2 * 1 ∧
    pH.get_decision_num_replicas 2 [2, 2] 0 =
      Except.ok ((2 : ℚ), { pH with decision_counter := 1 }) ∧
    ({ pH with decision_counter := 1 }).get_decision_num_replicas 2 [2, 2] 0 =
      Except.ok ((2 : ℚ), { pH with decision_counter := 2 }) ∧
    ({ pH with decision_counter := 2 }).get_decision_num_replicas 2 [2, 2] 0 =
      Except.ok ((4 : ℚ), pH) := by
  have hth : pH.scale_up_consecutive_periods = 2 := by
    show pyTrunc (cfgA.upscale_delay_s / 1) = 2
    exact pyTrunc_eq_of _ _ (by norm_num [cfgA]) (by norm_num [cfgA])
      (by norm_num [cfgA])
  refine ⟨fun hgt => ⟨fun hc => ?_, fun hc => ?_⟩,
    fun hlt => ⟨fun hc => ?_, fun hc => ?_⟩, hth, by norm_num [cfgA], ?_, ?_, ?_⟩
  · rw [get_decision_upscale p curr ongoing queued d hne hd hgt, if_pos hc]
  · rw [get_decision_upscale p curr ongoing queued d hne hd hgt,
      if_neg (not_lt.mpr hc)]
  · rw [get_decision_downscale p curr ongoing queued d hne hd hlt, if_pos hc]
  · rw [get_decision_downscale p curr ongoing queued d hne hd hlt,
      if_neg (not_lt.mpr hc)]
  · have hstep := get_decision_upscale pH 2 [2, 2] 0 4 (by norm_num)
      (hd_cfgA_family pH rfl rfl rfl rfl) (by norm_num)
    rw [hstep, if_neg (by rw [hth, show pH.decision_counter = (0 : ℤ) from rfl]; decide)]
    rfl
  · have hstep := get_decision_upscale ({ pH with decision_counter := 1 }) 2
      [2, 2] 0 4 (by norm_num) (hd_cfgA_family _ rfl rfl rfl rfl) (by norm_num)
    rw [hstep, if_neg (by rw [hth]; decide)]
    rfl
  · have hstep := get_decision_upscale ({ pH with decision_counter := 2 }) 2
      [2, 2] 0 4 (by norm_num) (hd_cfgA_family _ rfl rfl rfl rfl) (by norm_num)
    rw [hstep, if_pos (by rw [hth]; decide)]
    rfl

/-- C1 amended, instantiated: the hypotheses of `C1_hysteresis_amended` are
discharged at the concrete policy `pH` with current target 2 and ongoing
requests `[2, 2]`; the single-sample conclusion evaluates there. -/
theorem C1_hysteresis_amended_witness :
    pH.get_decision_num_replicas 2 [2, 2] 0 =
      Except.ok ((2 : ℚ), { pH with decision_counter := 1 }) :=
  (C1_hysteresis_amended pH 2 [2, 2] 0 4 (by norm_num)
    (hd_cfgA_family pH rfl rfl rfl rfl)).2.2.2.2.1

/-- A `get_decision_num_replicas` call only changes the decision counter,
and only to one of: its old value (empty-sample branch), zero (emission or
stable load), the reset-and-incremented value when it stays within the
upscale threshold, or the reset-and-decremented value when it stays within
the downscale threshold. -/
lemma stepPolicy_spec (p : BasicAutoscalingPolicy) (call : ℤ × List ℚ × ℚ) :
    ∃ c1 : ℤ, stepPolicy p call = { p with decision_counter := c1 } ∧
      (c1 = p.decision_counter ∨ c1 = 0 ∨
        (c1 = (if p.decision_counter < 0 then 0 else p.decision_counter) + 1 ∧
          c1 ≤ p.scale_up_consecutive_periods) ∨
        (c1 = (if 0 < p.decision_counter then 0 else p.decision_counter) - 1 ∧
          -p.scale_down_consecutive_periods ≤ c1)) := by
  by_cases hlen : call.2.1.length = 0
  · refine ⟨p.decision_counter, ?_, Or.inl rfl⟩
    unfold stepPolicy BasicAutoscalingPolicy.get_decision_num_replicas
    rw [if_pos hlen]
    by_cases hq : 0 < call.2.2
    · rw [if_pos hq]
    · rw [if_neg hq]
  · obtain ⟨d, hd⟩ : ∃ dv, calculate_desired_num_replicas p.config call.2.1
        (some (p.get_curr_lower_bound : ℚ))
        (some (p.get_capacity_adjusted_max_replicas : ℚ)) = Except.ok dv :=
      ⟨_, by rw [calculate_desired_nonempty _ _ _ _ hlen]⟩
    rcases lt_trichotomy ((call.1 : ℚ)) d with h | h | h
    · have hstep := get_decision_upscale p call.1 call.2.1 call.2.2 d hlen hd h
      unfold stepPolicy
      rw [hstep]
      by_cases hc : p.scale_up_consecutive_periods <
          (if p.decision_counter < 0 then 0 else p.decision_counter) + 1
      · rw [if_pos hc]
        exact ⟨0, rfl, Or.inr (Or.inl rfl)⟩
      · rw [if_neg hc]
        exact ⟨_, rfl, Or.inr (Or.inr (Or.inl ⟨rfl, not_lt.mp hc⟩))⟩
    · have hstep := get_decision_noop p call.1 call.2.1 call.2.2 d hlen hd h.symm
      unfold stepPolicy
      rw [hstep]
      exact ⟨0, rfl, Or.inr (Or.inl rfl)⟩
    · have hstep := get_decision_downscale p call.1 call.2.1 call.2.2 d hlen hd h
      unfold stepPolicy
      rw [hstep]
      by_cases hc : (if 0 < p.decision_counter then 0 else p.decision_counter) - 1 <
          -p.scale_down_consecutive_periods
      · rw [if_pos hc]
        exact ⟨0, rfl, Or.inr (Or.inl rfl)⟩
      · rw [if_neg hc]
        exact ⟨_, rfl, Or.inr (Or.inr (Or.inr ⟨rfl, not_lt.mp hc⟩))⟩

/-- Folding any sequence of calls preserves the thresholds and keeps the
counter inside `[-scale_down_consecutive_periods, scale_up_consecutive_periods]`. -/
lemma foldl_stepPolicy_bound (calls : List (ℤ × List ℚ × ℚ))
    (p : BasicAutoscalingPolicy)
    (hu : 0 ≤ p.scale_up_consecutive_periods)
    (hdn : 0 ≤ p.scale_down_consecutive_periods)
    (hlo : -p.scale_down_consecutive_periods ≤ p.decision_counter)
    (hhi : p.decision_counter ≤ p.scale_up_consecutive_periods) :
    (calls.foldl stepPolicy p).scale_up_consecutive_periods =
        p.scale_up_consecutive_periods ∧
    (calls.foldl stepPolicy p).scale_down_consecutive_periods =
        p.scale_down_consecutive_periods ∧
    -p.scale_down_consecutive_periods ≤ (calls.foldl stepPolicy p).decision_counter ∧
    (calls.foldl stepPolicy p).decision_counter ≤ p.scale_up_consecutive_periods := by
  induction calls generalizing p with
  | nil => exact ⟨rfl, rfl, hlo, hhi⟩
  | cons c rest ih =>
    obtain ⟨c1, hstep, hdisj⟩ := stepPolicy_spec p c
    rw [List.foldl_cons, hstep]
    have hbound : -p.scale_down_consecutive_periods ≤ c1 ∧
        c1 ≤ p.scale_up_consecutive_periods := by
      rcases hdisj with h | h | ⟨h, hb⟩ | ⟨h, hb⟩
      · exact ⟨h ▸ hlo, h ▸ hhi⟩
      · constructor <;> omega
      · by_cases hneg : p.decision_counter < 0
        · rw [if_pos hneg] at h
          constructor <;> omega
        · rw [if_neg hneg] at h
          constructor <;> omega
      · by_cases hpos : 0 < p.decision_counter
        · rw [if_pos hpos] at h
          constructor <;> omega
        · rw [if_neg hpos] at h
          constructor <;> omega
    exact ih { p with decision_counter := c1 } hu hdn hbound.1 hbound.2

/-- An empty-sample call leaves the whole policy state unchanged. -/
lemma stepPolicy_empty (p : BasicAutoscalingPolicy) (curr : ℤ) (queued : ℚ) :
    stepPolicy p (curr, [], queued) = p := by
  unfold stepPolicy BasicAutoscalingPolicy.get_decision_num_replicas
  simp only [List.length_nil, if_true]
  by_cases hq : 0 < queued
  · rw [if_pos hq]
  · rw [if_neg hq]

/-- C9: starting with the constructor's zero counter, for configs with
nonnegative delays and a positive loop period, every sequence of
`get_decision_num_replicas` calls leaves the counter in
`[-scale_down_consecutive_periods, scale_up_consecutive_periods]`, the
thresholds being the constructor-computed truncations of delay/period; and
an empty-sample call leaves the counter unchanged. -/
theorem C9_counter_bounded (cfg : AutoscalingConfig) (period : ℚ)
    (calls : List (ℤ × List ℚ × ℚ))
    (hup : 0 ≤ cfg.upscale_delay_s) (hdown : 0 ≤ cfg.downscale_delay_s)
    (hper : 0 < period) :
    (-(BasicAutoscalingPolicy.mk0 cfg period).scale_down_consecutive_periods ≤
        (calls.foldl stepPolicy
          (BasicAutoscalingPolicy.mk0 cfg period)).decision_counter ∧
      (calls.foldl stepPolicy
          (BasicAutoscalingPolicy.mk0 cfg period)).decision_counter ≤
        (BasicAutoscalingPolicy.mk0 cfg period).scale_up_consecutive_periods) ∧
    (BasicAutoscalingPolicy.mk0 cfg period).scale_up_consecutive_periods =
      pyTrunc (cfg.upscale_delay_s / period) ∧
    (BasicAutoscalingPolicy.mk0 cfg period).scale_down_consecutive_periods =
      pyTrunc (cfg.downscale_delay_s / period) ∧
    (∀ (p : BasicAutoscalingPolicy) (curr : ℤ) (queued : ℚ),
      (stepPolicy p (curr, [], queued)).decision_counter = p.decision_counter) := by
  have hu : 0 ≤ (BasicAutoscalingPolicy.mk0 cfg period).scale_up_consecutive_periods := by
    show (0 : ℤ) ≤ pyTrunc (cfg.upscale_delay_s / period)
    unfold pyTrunc
    rw [if_pos (div_nonneg hup hper.le)]
    exact Int.floor_nonneg.mpr (div_nonneg hup hper.le)
  have hdn : 0 ≤ (BasicAutoscalingPolicy.mk0 cfg period).scale_down_consecutive_periods := by
    show (0 : ℤ) ≤ pyTrunc (cfg.downscale_delay_s / period)
    unfold pyTrunc
    rw [if_pos (div_nonneg hdown hper.le)]
    exact Int.floor_nonneg.mpr (div_nonneg hdown hper.le)
  have hfold := foldl_stepPolicy_bound calls (BasicAutoscalingPolicy.mk0 cfg period)
    hu hdn
    (by show -(BasicAutoscalingPolicy.mk0 cfg period).scale_down_consecutive_periods ≤
        (0 : ℤ); omega)
    (by show (0 : ℤ) ≤ (BasicAutoscalingPolicy.mk0 cfg period).scale_up_consecutive_periods
        exact hu)
  exact ⟨⟨hfold.2.2.1, hfold.2.2.2⟩, rfl, rfl,
    fun p curr queued => by rw [stepPolicy_empty p curr queued]⟩

/-- C9, instantiated: after one over-target call on the `cfgA` policy the
counter lies within the thresholds. -/
theorem C9_counter_bounded_witness :
    -(BasicAutoscalingPolicy.mk0 cfgA 1).scale_down_consecutive_periods ≤
        (([((2 : ℤ), ([2, 2] : List ℚ), (0 : ℚ))]).foldl stepPolicy
          (BasicAutoscalingPolicy.mk0 cfgA 1)).decision_counter ∧
      (([((2 : ℤ), ([2, 2] : List ℚ), (0 : ℚ))]).foldl stepPolicy
          (BasicAutoscalingPolicy.mk0 cfgA 1)).decision_counter ≤
        (BasicAutoscalingPolicy.mk0 cfgA 1).scale_up_consecutive_periods :=
  (C9_counter_bounded cfgA 1 [(2, [2, 2], 0)] (by norm_num [cfgA])
    (by norm_num [cfgA]) (by norm_num)).1

/-- Under sustained zero traffic with the ceiling stuck at the replica
count, `calculate_desired_num_replicas` decrements by exactly one before
clamping. -/
lemma calc_zero_traffic (cfg : AutoscalingConfig) (l : List ℚ)
    (omin omax : Option ℚ) (hne : l.length ≠ 0) (hsum : l.sum = 0)
    (hceil : ⌈(l.length : ℚ) * (1 + (0 - 1) * cfg.downscale_smoothing_factor)⌉ =
      (l.length : ℤ)) :
    calculate_desired_num_replicas cfg l omin omax =
      Except.ok (max (omin.getD (cfg.min_replicas : ℚ))
        (min (omax.getD (cfg.max_replicas : ℚ)) (((l.length : ℤ) - 1 : ℤ) : ℚ))) := by
  rw [calculate_desired_nonempty cfg l omin omax hne]
  dsimp only
  rw [hsum, zero_div, zero_div, if_neg (by norm_num : ¬(1 : ℚ) ≤ 0), hceil]
  rw [if_pos (⟨by trivial, by trivial, by
    have := Nat.one_le_iff_ne_zero.mpr hne
    exact_mod_cast this⟩ : _ ∧ _ ∧ _)]

/-- Under sustained zero traffic (and `min_replicas = 0`, a downscale
smoothing factor in `(0, 1]`), one evaluation strictly decreases a positive
replica count. -/
lemma zeroTrafficStep_lt (cfg : AutoscalingConfig) (hmin : cfg.min_replicas = 0)
    (h0 : 0 ≤ cfg.downscale_smoothing_factor)
    (h1 : cfg.downscale_smoothing_factor ≤ 1)
    (c : ℕ) (hc : c ≠ 0) : zeroTrafficStep cfg c < c := by
  have hlen : (List.replicate c (0 : ℚ)).length = c := List.length_replicate c 0
  have hne : (List.replicate c (0 : ℚ)).length ≠ 0 := by rw [hlen]; exact hc
  have hc1 : 1 ≤ c := Nat.one_le_iff_ne_zero.mpr hc
  unfold zeroTrafficStep
  rw [calculate_desired_nonempty cfg _ none none hne]
  dsimp only
  rw [List.sum_replicate, smul_zero, zero_div, zero_div,
    if_neg (by norm_num : ¬(1 : ℚ) ≤ 0), hlen, hmin]
  simp only [Option.getD_none]
  have hD_le : ⌈(c : ℚ) * (1 + (0 - 1) * cfg.downscale_smoothing_factor)⌉ ≤ (c : ℤ) := by
    apply Int.ceil_le.mpr
    push_cast
    nlinarith [Nat.cast_nonneg (α := ℚ) c]
  have hD0 : 0 ≤ ⌈(c : ℚ) * (1 + (0 - 1) * cfg.downscale_smoothing_factor)⌉ := by
    apply Int.ceil_nonneg
    nlinarith [Nat.cast_nonneg (α := ℚ) c]
  set D : ℤ := ⌈(c : ℚ) * (1 + (0 - 1) * cfg.downscale_smoothing_factor)⌉ with hDdef
  have key : ∀ E : ℤ, 0 ≤ E → E ≤ (c : ℤ) - 1 →
      (⌈max ((0 : ℤ) : ℚ) (min ((cfg.max_replicas : ℤ) : ℚ) (E : ℚ))⌉).toNat < c := by
    intro E hE0 hE1
    have hV0 : (0 : ℚ) ≤ max ((0 : ℤ) : ℚ) (min ((cfg.max_replicas : ℤ) : ℚ) (E : ℚ)) := by
      simp
    have hV1 : max ((0 : ℤ) : ℚ) (min ((cfg.max_replicas : ℤ) : ℚ) (E : ℚ)) ≤
        (((c : ℤ) - 1 : ℤ) : ℚ) := by
      apply max_le
      · push_cast
        have : (1 : ℚ) ≤ (c : ℚ) := by exact_mod_cast hc1
        linarith
      · exact le_trans (min_le_right _ _) (by exact_mod_cast hE1)
    have hce : ⌈max ((0 : ℤ) : ℚ) (min ((cfg.max_replicas : ℤ) : ℚ) (E : ℚ))⌉ ≤
        (c : ℤ) - 1 := Int.ceil_le.mpr hV1
    have hce0 : 0 ≤ ⌈max ((0 : ℤ) : ℚ) (min ((cfg.max_replicas : ℤ) : ℚ) (E : ℚ))⌉ :=
      Int.ceil_nonneg hV0
    omega
  by_cases hEq : D = (c : ℤ)
  · rw [if_pos (⟨by trivial, hEq, by omega⟩ : _ ∧ _ ∧ _)]
    exact key (D - 1) (by omega) (by omega)
  · rw [if_neg (by
      rintro ⟨-, h, -⟩
      exact hEq h)]
    exact key D hD0 (by omega)

/-- Iterating the zero-traffic evaluation from any replica count reaches 0. -/
lemma zeroTraffic_reaches_zero (cfg : AutoscalingConfig)
    (hmin : cfg.min_replicas = 0) (h0 : 0 ≤ cfg.downscale_smoothing_factor)
    (h1 : cfg.downscale_smoothing_factor ≤ 1) :
    ∀ c0 : ℕ, ∃ k : ℕ, (zeroTrafficStep cfg)^[k] c0 = 0 := by
  intro c0
  induction c0 using Nat.strong_induction_on with
  | _ c ih =>
    rcases Nat.eq_zero_or_pos c with hz | hp
    · exact ⟨0, by simpa using hz⟩
    · obtain ⟨k, hk⟩ := ih (zeroTrafficStep cfg c)
        (zeroTrafficStep_lt cfg hmin h0 h1 c (Nat.pos_iff_ne_zero.mp hp))
      exact ⟨k + 1, by rw [Function.iterate_succ_apply]; exact hk⟩

/-- C3: if the error ratio is zero and the ceiling-computed desired count
equals the (positive) current replica count, the count is decremented by
exactly one before the clamp; consequently, with `min_replicas = 0` and a
downscale smoothing factor in `[0, 1]`, iterating the evaluation under
sustained zero traffic eventually reaches 0 replicas. -/
theorem C3_zero_traffic_scale_to_zero :
    (∀ (cfg : AutoscalingConfig) (l : List ℚ) (omin omax : Option ℚ),
        l.length ≠ 0 → l.sum = 0 →
        0 < cfg.target_num_ongoing_requests_per_replica →
        ⌈(l.length : ℚ) * (1 + (0 - 1) * cfg.downscale_smoothing_factor)⌉ =
          (l.length : ℤ) →
        calculate_desired_num_replicas cfg l omin omax =
          Except.ok (max (omin.getD (cfg.min_replicas : ℚ))
            (min (omax.getD (cfg.max_replicas : ℚ))
              (((l.length : ℤ) - 1 : ℤ) : ℚ)))) ∧
    (∀ cfg : AutoscalingConfig, cfg.min_replicas = 0 →
        0 ≤ cfg.downscale_smoothing_factor → cfg.downscale_smoothing_factor ≤ 1 →
        0 < cfg.target_num_ongoing_requests_per_replica →
        ∀ c0 : ℕ, ∃ k : ℕ, (zeroTrafficStep cfg)^[k] c0 = 0) :=
  ⟨fun cfg l omin omax hne hsum _ hceil =>
      calc_zero_traffic cfg l omin omax hne hsum hceil,
    fun cfg hmin h0 h1 _ => zeroTraffic_reaches_zero cfg hmin h0 h1⟩

/-- C3, instantiated: at `cfgZ` (downscale smoothing factor 1/10,
`min_replicas = 0`) five idle replicas evaluate to 4 desired replicas, and
iterating from 3 replicas reaches 0. -/
theorem C3_zero_traffic_scale_to_zero_witness :
    calculate_desired_num_replicas cfgZ (List.replicate 5 (0 : ℚ)) none none =
        Except.ok 4 ∧
    (∃ k : ℕ, (zeroTrafficStep cfgZ)^[k] 3 = 0) := by
  constructor
  · have h := C3_zero_traffic_scale_to_zero.1 cfgZ (List.replicate 5 0) none none
      (by norm_num) (by simp) (by norm_num [cfgZ, cfgA])
      (by
        rw [show ((List.replicate 5 (0 : ℚ)).length : ℚ) *
            (1 + (0 - 1) * cfgZ.downscale_smoothing_factor) = 9 / 2 by
          norm_num [cfgZ, cfgA]]
        rw [show ((List.replicate 5 (0 : ℚ)).length : ℤ) = 5 by norm_num]
        rw [Int.ceil_eq_iff] <;> norm_num)
    rw [h]
    norm_num [cfgZ, cfgA]
  · exact C3_zero_traffic_scale_to_zero.2 cfgZ rfl (by norm_num [cfgZ, cfgA])
      (by norm_num [cfgZ, cfgA]) (by norm_num [cfgZ, cfgA]) 3

/-! ## Router lemmas -/

/-- `lookupCount` on a cons cell. -/
lemma lookupCount_cons (e : String × ℕ) (rest : List (String × ℕ)) (tag : String) :
    lookupCount (e :: rest) tag =
      if e.1 = tag then e.2 else lookupCount rest tag := by
  by_cases h : e.1 = tag
  · rw [if_pos h]
    unfold lookupCount
    rw [List.find?_cons_of_pos _ (by simpa using h)]
    rfl
  · rw [if_neg h]
    unfold lookupCount
    rw [List.find?_cons_of_neg _ (by simpa using h)]

/-- `setCount` on a cons cell. -/
lemma setCount_cons (e : String × ℕ) (rest : List (String × ℕ)) (tag : String)
    (n : ℕ) :
    setCount (e :: rest) tag n =
      if e.1 = tag then (tag, n) :: rest else e :: setCount rest tag n := by
  by_cases h : e.1 = tag
  · rw [if_pos h]
    show (if (e.1 == tag) = true then (tag, n) :: rest
      else e :: setCount rest tag n) = (tag, n) :: rest
    rw [if_pos (by simpa using h)]
  · rw [if_neg h]
    show (if (e.1 == tag) = true then (tag, n) :: rest
      else e :: setCount rest tag n) = e :: setCount rest tag n
    rw [if_neg (by simpa using h)]

/-- `setCount` sets the looked-up count of its tag. -/
lemma lookupCount_setCount_self (m : List (String × ℕ)) (tag : String) (n : ℕ) :
    lookupCount (setCount m tag n) tag = n := by
  induction m with
  | nil =>
    rw [show setCount [] tag n = [(tag, n)] from rfl, lookupCount_cons]
    simp
  | cons e rest ih =>
    rw [setCount_cons]
    by_cases h : e.1 = tag
    · rw [if_pos h, lookupCount_cons]
      simp
    · rw [if_neg h, lookupCount_cons, if_neg h]
      exact ih

/-- `setCount` leaves every other tag's count unchanged. -/
lemma lookupCount_setCount_ne (m : List (String × ℕ)) (tag tg : String) (n : ℕ)
    (h : tg ≠ tag) : lookupCount (setCount m tag n) tg = lookupCount m tg := by
  induction m with
  | nil =>
    rw [show setCount [] tag n = [(tag, n)] from rfl, lookupCount_cons,
      if_neg (by simpa using Ne.symm h)]
  | cons e rest ih =>
    rw [setCount_cons]
    by_cases he : e.1 = tag
    · rw [if_pos he, lookupCount_cons, if_neg (by simpa using Ne.symm h),
        lookupCount_cons, if_neg (he ▸ fun h2 => h h2.symm)]
    · rw [if_neg he, lookupCount_cons, lookupCount_cons, ih]

/-- Looking a tag up after filtering by a key predicate: unchanged when the
tag passes the predicate, 0 when it does not. -/
lemma lookupCount_filter_key (m : List (String × ℕ)) (f : String → Bool)
    (tag : String) :
    lookupCount (m.filter (fun e => f e.1)) tag =
      if f tag then lookupCount m tag else 0 := by
  induction m with
  | nil => by_cases h : f tag <;> simp [lookupCount, h]
  | cons e rest ih =>
    by_cases hf : f e.1
    · rw [List.filter_cons_of_pos (by simpa using hf), lookupCount_cons,
        lookupCount_cons]
      by_cases he : e.1 = tag
      · rw [if_pos he, if_pos (show f tag = true from he ▸ hf), if_pos he]
      · rw [if_neg he, if_neg he, ih]
    · rw [List.filter_cons_of_neg (by simpa using hf), ih]
      by_cases hff : f tag
      · rw [if_pos hff, if_pos hff, lookupCount_cons,
          if_neg (fun (he : e.1 = tag) =>
            (by simpa using hf : ¬f e.1 = true) (by rw [he]; exact hff))]
      · rw [if_neg hff, if_neg hff]

/-- Membership in the candidate set, unfolded. -/
lemma mem_eligibleReplicas (rs : ReplicaSet) (now : ℕ) (r : RunningReplicaInfo) :
    r ∈ rs.eligibleReplicas now ↔
      r ∈ rs.replicas ∧ rs.isEmbargoed now r.replica_tag = false ∧
        lookupCount rs.in_flight r.replica_tag < r.max_concurrent_queries := by
  unfold ReplicaSet.eligibleReplicas
  rw [List.mem_filter]
  simp [Bool.and_eq_true, decide_eq_true_iff]

/-- `pickLeastLoaded` on a cons cell. -/
lemma pickLeastLoaded_cons_none (rs : ReplicaSet) (a : RunningReplicaInfo)
    (rest : List RunningReplicaInfo) (hp : pickLeastLoaded rs rest = none) :
    pickLeastLoaded rs (a :: rest) = some a := by
  unfold pickLeastLoaded
  rw [hp]

/-- `pickLeastLoaded` on a cons cell with a nonempty tail pick. -/
lemma pickLeastLoaded_cons_some (rs : ReplicaSet) (a : RunningReplicaInfo)
    (rest : List RunningReplicaInfo) (best : RunningReplicaInfo)
    (hp : pickLeastLoaded rs rest = some best) :
    pickLeastLoaded rs (a :: rest) =
      if lookupCount rs.in_flight a.replica_tag ≤
          lookupCount rs.in_flight best.replica_tag then some a
      else some best := by
  unfold pickLeastLoaded
  rw [hp]

/-- The selected replica is one of the candidates. -/
lemma pickLeastLoaded_mem (rs : ReplicaSet) (l : List RunningReplicaInfo)
    (r : RunningReplicaInfo) (h : pickLeastLoaded rs l = some r) : r ∈ l := by
  induction l with
  | nil => exact absurd h (by simp [pickLeastLoaded])
  | cons a rest ih =>
    cases hp : pickLeastLoaded rs rest with
    | none =>
      rw [pickLeastLoaded_cons_none rs a rest hp] at h
      simp only [Option.some.injEq] at h
      exact h ▸ List.mem_cons_self a rest
    | some best =>
      rw [pickLeastLoaded_cons_some rs a rest best hp] at h
      by_cases hle : lookupCount rs.in_flight a.replica_tag ≤
          lookupCount rs.in_flight best.replica_tag
      · rw [if_pos hle] at h
        simp only [Option.some.injEq] at h
        exact h ▸ List.mem_cons_self a rest
      · rw [if_neg hle] at h
        simp only [Option.some.injEq] at h
        exact List.mem_cons_of_mem a (ih (h ▸ hp))

/-- A successful `assign` comes from an eligible pick and only bumps that
replica's in-flight count. -/
lemma assign_some_spec (rs : ReplicaSet) (now : ℕ) (tag : String)
    (rs1 : ReplicaSet) (h : rs.assign now = some (tag, rs1)) :
    ∃ r : RunningReplicaInfo, r ∈ rs.eligibleReplicas now ∧ r.replica_tag = tag ∧
      rs1 = { rs with in_flight := setCount rs.in_flight r.replica_tag (lookupCount rs.in_flight r.replica_tag + 1) } := by
  unfold ReplicaSet.assign at h
  cases hp : pickLeastLoaded rs (rs.eligibleReplicas now) with
  | none => rw [hp] at h; exact absurd h (by simp)
  | some r =>
    rw [hp] at h
    simp only [Option.some.injEq, Prod.mk.injEq] at h
    exact ⟨r, pickLeastLoaded_mem rs _ r hp, h.1, h.2.symm⟩

/-- The router's inductive invariant: registry tags are distinct, every
registered replica's in-flight count is within its limit, and unregistered
tags carry no in-flight count. -/
def RouterInv (rs : ReplicaSet) : Prop :=
  (rs.replicas.map RunningReplicaInfo.replica_tag).Nodup ∧
  (∀ r ∈ rs.replicas,
    lookupCount rs.in_flight r.replica_tag ≤ r.max_concurrent_queries) ∧
  (∀ tag : String, (∀ r ∈ rs.replicas, r.replica_tag ≠ tag) →
    lookupCount rs.in_flight tag = 0)

/-- The invariant is preserved by every router transition. -/
lemma routerInv_step (rs rs1 : ReplicaSet) (h : RouterStep rs rs1)
    (hinv : RouterInv rs) : RouterInv rs1 := by
  obtain ⟨hnd, hcap, hzero⟩ := hinv
  cases h with
  | assign now tag rs2 hassign =>
    obtain ⟨r, hel, htag, hrs1⟩ := assign_some_spec rs now tag rs1 hassign
    obtain ⟨hmem, -, hlt⟩ := (mem_eligibleReplicas rs now r).mp hel
    subst hrs1
    refine ⟨hnd, fun r2 hr2 => ?_, fun tg htg => ?_⟩
    · by_cases he : r2.replica_tag = r.replica_tag
      · have : r2 = r := List.inj_on_of_nodup_map hnd hr2 hmem he
        subst this
        rw [he, lookupCount_setCount_self]
        omega
      · rw [lookupCount_setCount_ne _ _ _ _ he]
        exact hcap r2 hr2
    · have hne : tg ≠ r.replica_tag := fun he => htg r hmem he.symm
      rw [lookupCount_setCount_ne _ _ _ _ hne]
      exact hzero tg htg
  | complete tag =>
    refine ⟨hnd, fun r2 hr2 => ?_, fun tg htg => ?_⟩
    · by_cases he : r2.replica_tag = tag
      · rw [show (rs.complete_query tag).in_flight = setCount rs.in_flight tag
            (lookupCount rs.in_flight tag - 1) from rfl, he,
          lookupCount_setCount_self]
        have := hcap r2 hr2
        rw [he] at this
        omega
      · rw [show (rs.complete_query tag).in_flight = setCount rs.in_flight tag
            (lookupCount rs.in_flight tag - 1) from rfl,
          lookupCount_setCount_ne _ _ _ _ he]
        exact hcap r2 hr2
    · by_cases he : tg = tag
      · subst he
        rw [show (rs.complete_query tg).in_flight = setCount rs.in_flight tg
            (lookupCount rs.in_flight tg - 1) from rfl,
          lookupCount_setCount_self, hzero tg htg]
      · rw [show (rs.complete_query tag).in_flight = setCount rs.in_flight tag
            (lookupCount rs.in_flight tag - 1) from rfl,
          lookupCount_setCount_ne _ _ _ _ he]
        exact hzero tg htg
  | embargo now tag duration => exact ⟨hnd, hcap, hzero⟩
  | update new_replicas hnd2 hcaps =>
    refine ⟨hnd2, fun r2 hr2 => ?_, fun tg htg => ?_⟩
    · have hf : (new_replicas.any (fun r => r.replica_tag == r2.replica_tag)) = true :=
        List.any_eq_true.mpr ⟨r2, hr2, by simp⟩
      rw [show (rs.update_running_replicas new_replicas).in_flight =
          rs.in_flight.filter (fun e =>
            new_replicas.any (fun r => r.replica_tag == e.1)) from rfl,
        lookupCount_filter_key rs.in_flight
          (fun tg2 => new_replicas.any (fun r => r.replica_tag == tg2)),
        if_pos hf]
      by_cases hold : ∃ r0 ∈ rs.replicas, r0.replica_tag = r2.replica_tag
      · obtain ⟨r0, hr0, he0⟩ := hold
        calc lookupCount rs.in_flight r2.replica_tag
            = lookupCount rs.in_flight r0.replica_tag := by rw [he0]
          _ ≤ r0.max_concurrent_queries := hcap r0 hr0
          _ = r2.max_concurrent_queries := hcaps r2 hr2 r0 hr0 he0
      · rw [hzero r2.replica_tag (fun r0 hr0 he0 => hold ⟨r0, hr0, he0⟩)]
        exact Nat.zero_le _
    · have hf : (new_replicas.any (fun r => r.replica_tag == tg)) = false := by
        rw [Bool.eq_false_iff]
        intro hany
        obtain ⟨r0, hr0, he0⟩ := List.any_eq_true.mp hany
        exact htg r0 hr0 (by simpa using he0)
      rw [show (rs.update_running_replicas new_replicas).in_flight =
          rs.in_flight.filter (fun e =>
            new_replicas.any (fun r => r.replica_tag == e.1)) from rfl,
        lookupCount_filter_key rs.in_flight
          (fun tg2 => new_replicas.any (fun r => r.replica_tag == tg2)),
        if_neg (by simp [hf])]

/-- Every reachable router state satisfies the invariant. -/
lemma routerInv_of_reachable (rs : ReplicaSet) (h : ReachableRouter rs) :
    RouterInv rs := by
  induction h with
  | refl =>
    exact ⟨by simp [ReplicaSet.empty], by simp [ReplicaSet.empty],
      fun tag _ => by simp [ReplicaSet.empty, lookupCount]⟩
  | tail hsteps hstep ih => exact routerInv_step _ _ hstep ih

/-- A router with one replica of capacity 1, reached by a registry update. -/
def rsW : ReplicaSet := ReplicaSet.empty.update_running_replicas [⟨"a", 1⟩]

/-- A router with two replicas of capacity 15 and an embargo on replica "2"
expiring at time 5. -/
def rsE : ReplicaSet := ⟨[⟨"1", 15⟩, ⟨"2", 15⟩], [], [("2", 5)]⟩

/-- `rsE` after one assignment to replica "1". -/
def rsE1 : ReplicaSet := ⟨[⟨"1", 15⟩, ⟨"2", 15⟩], [("1", 1)], [("2", 5)]⟩

/-- C6: in every reachable router state, each registered replica's in-flight
count is within its limit; a successful `assign` picks only a replica with
spare capacity; and when every registered replica is at capacity, `assign`
suspends (returns no assignment). -/
theorem C6_router_capacity_invariant (rs : ReplicaSet) (h : ReachableRouter rs) :
    (∀ r ∈ rs.replicas,
      lookupCount rs.in_flight r.replica_tag ≤ r.max_concurrent_queries) ∧
    (∀ (now : ℕ) (tag : String) (rs1 : ReplicaSet),
      rs.assign now = some (tag, rs1) →
      ∀ r ∈ rs.replicas, r.replica_tag = tag →
        lookupCount rs.in_flight tag < r.max_concurrent_queries) ∧
    (∀ now : ℕ,
      (∀ r ∈ rs.replicas,
        r.max_concurrent_queries ≤ lookupCount rs.in_flight r.replica_tag) →
      rs.assign now = none) := by
  obtain ⟨hnd, hcap, hzero⟩ := routerInv_of_reachable rs h
  refine ⟨hcap, ?_, ?_⟩
  · intro now tag rs1 hassign r2 hr2 htag2
    obtain ⟨r, hel, htag, -⟩ := assign_some_spec rs now tag rs1 hassign
    obtain ⟨hmemr, -, hlt⟩ := (mem_eligibleReplicas rs now r).mp hel
    have hr2r : r2 = r :=
      List.inj_on_of_nodup_map hnd hr2 hmemr (by rw [htag2, htag])
    subst hr2r
    rw [← htag]
    exact hlt
  · intro now hfull
    have hel : rs.eligibleReplicas now = [] := by
      unfold ReplicaSet.eligibleReplicas
      rw [List.filter_eq_nil_iff]
      intro r hr
      simp only [Bool.and_eq_true, Bool.not_eq_true', decide_eq_true_iff, not_and]
      intro _
      exact not_lt.mpr (hfull r hr)
    unfold ReplicaSet.assign
    rw [hel]
    rfl

/-- C6, instantiated: in the reachable one-replica router `rsW`, the
replica's in-flight count is within its capacity limit. -/
theorem C6_router_capacity_invariant_witness :
    lookupCount rsW.in_flight "a" ≤ 1 :=
  (C6_router_capacity_invariant rsW
    (Relation.ReflTransGen.single (RouterStep.update ReplicaSet.empty
      [⟨"a", 1⟩] (by decide)
      (fun r _ r0 hr0 _ => absurd hr0 (by simp [ReplicaSet.empty]))))).1
    ⟨"a", 1⟩ (by decide)

/-- C7: while a replica has an unexpired embargo entry, `assign` never
selects it (regardless of its spare capacity), its in-flight count and the
registry are untouched by the assignment; once the embargo has expired, the
replica is again an eligible candidate whenever it has spare capacity. -/
theorem C7_embargo_invariant (rs : ReplicaSet) (now : ℕ) (tag : String)
    (expiry : ℕ) (hmem : (tag, expiry) ∈ rs.embargoes) (hun : now < expiry)
    (huniq : ∀ e ∈ rs.embargoes, e.1 = tag → e.2 = expiry) :
    (∀ (tg : String) (rs1 : ReplicaSet), rs.assign now = some (tg, rs1) →
      tg ≠ tag ∧ lookupCount rs1.in_flight tag = lookupCount rs.in_flight tag ∧
      rs1.replicas = rs.replicas ∧ rs1.embargoes = rs.embargoes) ∧
    (∀ t2 : ℕ, expiry ≤ t2 →
      ∀ r ∈ rs.replicas, r.replica_tag = tag →
        lookupCount rs.in_flight r.replica_tag < r.max_concurrent_queries →
        r ∈ rs.eligibleReplicas t2) := by
  have hemb : rs.isEmbargoed now tag = true := by
    unfold ReplicaSet.isEmbargoed
    rw [List.any_eq_true]
    exact ⟨(tag, expiry), hmem, by simp [hun]⟩
  constructor
  · intro tg rs1 hassign
    obtain ⟨r, hel, htag, hrs1⟩ := assign_some_spec rs now tg rs1 hassign
    obtain ⟨-, hnemb, -⟩ := (mem_eligibleReplicas rs now r).mp hel
    have hne : r.replica_tag ≠ tag := by
      intro he
      rw [he, hemb] at hnemb
      simp at hnemb
    refine ⟨htag ▸ hne, ?_, by rw [hrs1], by rw [hrs1]⟩
    rw [hrs1]
    exact lookupCount_setCount_ne _ _ _ _ (Ne.symm hne)
  · intro t2 ht2 r hr htag hcapr
    rw [mem_eligibleReplicas]
    refine ⟨hr, ?_, hcapr⟩
    rw [htag]
    unfold ReplicaSet.isEmbargoed
    rw [List.any_eq_false]
    intro e he
    simp only [Bool.and_eq_true, beq_iff_eq, decide_eq_true_iff, not_and]
    intro he1 hlt
    rw [huniq e he he1] at hlt
    omega

/-- C7, instantiated: with replica "2" embargoed until time 5 in `rsE`, the
assignment at time 0 goes to replica "1" and leaves replica "2"'s state and
the registry untouched. -/
theorem C7_embargo_invariant_witness :
    ("1" : String) ≠ "2" ∧
      lookupCount rsE1.in_flight "2" = lookupCount rsE.in_flight "2" ∧
      rsE1.replicas = rsE.replicas ∧ rsE1.embargoes = rsE.embargoes :=
  (C7_embargo_invariant rsE 0 "2" 5 (by decide) (by decide) (by decide)).1
    "1" rsE1 (by decide)

end RayServe
